import Mathlib

/-!
# Verification of the momo-bot group segment store and presence engine

A shallow embedding of the core of the `momo-bot` chat-bot plugin:

* the segment codec (`src/util.rs`, `extract_segments`),
* the segment store (`src/store.rs`, `write_group_msg`, `db_load_n_group_segment`,
  `db_find_segment_by_id`, `dump_csv`),
* the recall reconciler (`src/group_notice.rs`, `handle_recall`),
* the presence watcher (`src/live.rs`, `subscribe_live`, together with
  `LiveSetting::get_switch` / `set_switch` from `src/global_state.rs`).

The database is embedded as an in-memory, append-only list of rows per
channel table (row order = the strictly increasing `auto_id`); inserts are
modelled as always succeeding (an underlying I/O failure is environment
non-determinism outside this embedding).  External collaborators (the chat
platform API, the upload script, the liveness HTTP query) are passed in as
explicit environment records.  Log side effects are returned as explicit
lists of `(level, message)` events; the dynamic parts of a few log message
strings are abbreviated where the Rust `Display` rendering of a foreign
error type is not reproducible, since no property depends on those texts.
-/

namespace MomoBot

/-- Log levels of `src/log.rs` (`std_*` / `db_*` / `std_db_*` macro families). -/
inductive LogLevel where
  | debug
  | info
  | warn
  | error
deriving DecidableEq, Repr

/-- One emitted log event: the level and the formatted message. -/
structure LogEvent where
  level : LogLevel
  msg : String
deriving DecidableEq, Repr

/-! ## JSON payloads and message parts

`extract_segments` reads `seg.data[field]` from a `serde_json::Value` map:
indexing a missing key yields `Value::Null`, and
`serde_json::from_value::<String>` succeeds exactly on `Value::String`. -/

/-- The fragment of `serde_json::Value` the codec inspects. -/
inductive JVal where
  | str (s : String)
  | num (n : Int)
  | null
  | other
deriving DecidableEq, Repr

/-- One part of an inbound multi-part message (`kovi` message segment):
its `type_` tag and its `data` object. -/
structure MsgSeg where
  type_ : String
  data : List (String × JVal)
deriving DecidableEq, Repr

/-- `seg.data[key]`: indexing a `serde_json` map; a missing key is `Null`. -/
def dataGet (seg : MsgSeg) (key : String) : JVal :=
  match seg.data.lookup key with
  | some v => v
  | none => JVal.null

/-- `serde_json::from_value::<String>(v).ok()`. -/
def fromValueString : JVal → Option String
  | JVal.str s => some s
  | _ => none

/-- The payload a recognized part kind carries (the `match seg_type.as_str()`
inside `extract_segments`, `src/util.rs:72-81`); `none` both for an
unrecognized kind and for a missing or non-string payload field. -/
def segPayload (seg : MsgSeg) : Option String :=
  match seg.type_ with
  | "text" => fromValueString (dataGet seg "text")
  | "image" => fromValueString (dataGet seg "file")
  | "record" => fromValueString (dataGet seg "file")
  | "video" => fromValueString (dataGet seg "file")
  | "at" => fromValueString (dataGet seg "qq")
  | "share" => fromValueString (dataGet seg "url")
  | "contact" => fromValueString (dataGet seg "id")
  | "reply" => fromValueString (dataGet seg "id")
  | "forward" => fromValueString (dataGet seg "id")
  | "node" => fromValueString (dataGet seg "id")
  | _ => none

/-- `util::extract_segments`: decompose an ordered part list into
`(kind, content)` pairs; a part without a recognized payload is skipped
with one `db_warn!` event and the loop continues. -/
def extract_segments : List MsgSeg → List (String × String) × List LogEvent
  | [] => ([], [])
  | seg :: rest =>
    let tail := extract_segments rest
    match segPayload seg with
    | some content => ((seg.type_, content) :: tail.1, tail.2)
    | none =>
      (tail.1, ⟨LogLevel.warn, "Skip extract segment that is not pre-defined"⟩ :: tail.2)

/-! ## Integer parsing (`seg_content.parse::<i64>()`) -/

/-- Decimal digits, at least one, to a number (no sign). -/
def digitsToNat (cs : List Char) : Option Nat :=
  if cs ≠ [] ∧ cs.all Char.isDigit then
    some (cs.foldl (fun a c => a * 10 + (c.toNat - 48)) 0)
  else none

def i64Min : Int := -(2 ^ 63)

def i64Max : Int := 2 ^ 63 - 1

/-- Rust `str::parse::<i64>`: optional `+`/`-` sign, decimal digits,
value within the `i64` range. -/
def parseI64 (s : String) : Option Int :=
  match s.toList with
  | '+' :: cs => (digitsToNat cs).bind fun n =>
      if (n : Int) ≤ i64Max then some (n : Int) else none
  | '-' :: cs => (digitsToNat cs).bind fun n =>
      if i64Min ≤ -(n : Int) then some (-(n : Int)) else none
  | cs => (digitsToNat cs).bind fun n =>
      if (n : Int) ≤ i64Max then some (n : Int) else none

/-! ## Time representation (`util::TimeRepr`, `util::iso8601_from_timestamp`)

`iso8601_from_timestamp` calls `time::OffsetDateTime::from_unix_timestamp`,
which fails outside the representable date range (years −9999..=9999,
i.e. unix seconds −377705116800..=253402300799), then shifts to UTC+8 and
formats `[year]-[month]-[day] [hour]:[minute]:[second]`.  (The `to_offset`
overflow possible in the last eight hours of year 9999 is a library panic,
not an error return, and is outside this embedding.) -/

def minUnixTimestamp : Int := -377705116800

def maxUnixTimestamp : Int := 253402300799

/-- Gregorian civil date from days since 1970-01-01 (the standard
days-to-civil algorithm; Lean's `Int` division already rounds toward
negative infinity for a positive divisor, which is what the algorithm
needs). Returns `(year, month, day)`. -/
def civilFromDays (day : Int) : Int × Int × Int :=
  let z := day + 719468
  let era := z / 146097
  let doe := z - era * 146097
  let yoe := (doe - doe / 1460 + doe / 36524 - doe / 146096) / 365
  let y := yoe + era * 400
  let doy := doe - (365 * yoe + yoe / 4 - yoe / 100)
  let mp := (5 * doy + 2) / 153
  let d := doy - (153 * mp + 2) / 5 + 1
  let m := mp + (if mp < 10 then 3 else -9)
  (y + (if m ≤ 2 then 1 else 0), m, d)

def pad2 (n : Int) : String :=
  (if n < 10 then "0" else "") ++ toString n

def pad4Nat (n : Int) : String :=
  (if n < 10 then "000" else if n < 100 then "00" else if n < 1000 then "0" else "")
    ++ toString n

def pad4 (n : Int) : String :=
  if n < 0 then "-" ++ pad4Nat (-n) else pad4Nat n

/-- `util::iso8601_from_timestamp`: unix seconds to
`"year-month-day hour:minute:second"` in UTC+8, or `none` when
`from_unix_timestamp` rejects the value. -/
def iso8601_from_timestamp (t : Int) : Option String :=
  if t < minUnixTimestamp ∨ maxUnixTimestamp < t then none
  else
    let secs := t + 8 * 3600
    let day := secs / 86400
    let sod := secs % 86400
    let ymd := civilFromDays day
    some (pad4 ymd.1 ++ "-" ++ pad2 ymd.2.1 ++ "-" ++ pad2 ymd.2.2 ++ " " ++
      pad2 (sod / 3600) ++ ":" ++ pad2 (sod / 60 % 60) ++ ":" ++ pad2 (sod % 60))

/-- `util::TimeRepr`: a timestamp either already in ISO-8601 text form or as
unix seconds. -/
inductive TimeRepr where
  | Iso8601 (t : String)
  | UnixTimeStamp (t : Int)
deriving DecidableEq, Repr

/-- `TimeRepr::to_iso8601`: logs one `std_db_error!` event and yields `none`
on a non-representable unix timestamp (message abbreviated: the Rust code
formats the `time` crate's component-range error). -/
def TimeRepr.to_iso8601 : TimeRepr → Option String × List LogEvent
  | TimeRepr.Iso8601 t => (some t, [])
  | TimeRepr.UnixTimeStamp t =>
    match iso8601_from_timestamp t with
    | some s => (some s, [])
    | none => (none, [⟨LogLevel.error, "timestamp out of range"⟩])

/-! ## The segment store (`src/store.rs`)

A channel table is a list of `GroupChatSegment` rows in `auto_id` order
(`auto_id INTEGER PRIMARY KEY` is strictly increasing, so list order is
storage order). -/

/-- `store::GroupChatSegment`: one stored row of a channel table. -/
structure GroupChatSegment where
  message_id : Int
  time : String
  sender_id : Int
  sender_name : String
  seg_type : String
  content : String
  interpret : String
deriving DecidableEq, Repr

/-- The external collaborators `write_group_msg` / `handle_recall` consult:
the wall clock, the group-member name lookup (`util::get_name_in_group`,
itself an upstream API call), the chat-platform file resolution for record
and image segments (`bot.get_record` / `bot.get_image` through
`extract_api`), the upload script (`util::call_upload`) and the bot's own
account id (`BOT_QQ`). -/
structure StoreEnv where
  now : String
  nameOf : Int → Int → String
  recordPath : String → String
  imagePath : String → String
  upload : String → String
  botQQ : Int

/-- The per-segment `(content, interpret)` computation of
`store::write_group_msg` (`src/store.rs:86-120`): `none` exactly when an
`at` segment's content does not parse as `i64`, which is skipped with one
`std_db_error!` event (`continue`). -/
def interpret_segment (env : StoreEnv) (group_id : Int) (seg_type seg_content : String) :
    Option (String × String) × List LogEvent :=
  match seg_type with
  | "share" => (some (seg_content, "url"), [])
  | "video" => (some (seg_content, "not supported"), [])
  | "record" =>
    let path := env.recordPath seg_content
    if path.startsWith "/" then (some (path, env.upload path), [])
    else (some (path, ""), [])
  | "image" =>
    let path := env.imagePath seg_content
    if path.startsWith "/" then (some (path, env.upload path), [])
    else (some (path, ""), [])
  | "at" =>
    match parseI64 seg_content with
    | some receiver_id => (some (toString receiver_id, env.nameOf group_id receiver_id), [])
    | none => (none, [⟨LogLevel.error, "At message has content not i64: " ++ seg_content⟩])
  | "reply" => (some (seg_content, "message_id"), [])
  | "text" => (some (seg_content, "text"), [])
  | _ => (some ("", ""), [])

/-- The `for (seg_type, seg_content) in segments` loop of `write_group_msg`:
the rows appended (in order) and the log events emitted. -/
def storeSegments (env : StoreEnv) (group_id message_id : Int) (time : String)
    (sender_id : Int) (sender_name : String) :
    List (String × String) → List GroupChatSegment × List LogEvent
  | [] => ([], [])
  | (seg_type, seg_content) :: rest =>
    let tail := storeSegments env group_id message_id time sender_id sender_name rest
    match interpret_segment env group_id seg_type seg_content with
    | (some ci, ls) =>
      (⟨message_id, time, sender_id, sender_name, seg_type, ci.1, ci.2⟩ :: tail.1,
        ls ++ tail.2)
    | (none, ls) => (tail.1, ls ++ tail.2)

/-- `store::write_group_msg`: resolve the timestamp (early return on
failure), resolve the sender name, decompose the message and append one row
per surviving segment to the channel table.  Returns the updated table and
the emitted log events. -/
def write_group_msg (env : StoreEnv) (table : List GroupChatSegment)
    (group_id message_id : Int) (time : Option TimeRepr) (sender_id : Int)
    (parts : List MsgSeg) : List GroupChatSegment × List LogEvent :=
  match TimeRepr.to_iso8601 ((time.getD (TimeRepr.Iso8601 env.now))) with
  | (none, tlogs) => (table, tlogs)
  | (some timeStr, tlogs) =>
    let sender_name := env.nameOf group_id sender_id
    let extracted := extract_segments parts
    let stored := storeSegments env group_id message_id timeStr sender_id sender_name
      extracted.1
    (table ++ stored.1, tlogs ++ extracted.2 ++ stored.2)

/-- `store::db_find_segment_by_id`: `SELECT ... WHERE message_id = $1`; the
rows sharing that id, in storage order. -/
def db_find_segment_by_id (table : List GroupChatSegment) (message_id : Int) :
    List GroupChatSegment :=
  table.filter (fun s => s.message_id == message_id)

/-- The `SELECT DISTINCT time ... ORDER BY time DESC LIMIT n` subquery of
`sql_query::load_n_latest_msg` (SQLite compares `TEXT` byte-wise, which on
these ISO-8601 strings is the lexicographic string order). -/
def top_n_times (table : List GroupChatSegment) (n : Nat) : List String :=
  (((table.map GroupChatSegment.time).dedup).mergeSort
    (fun a b => decide (b ≤ a))).take n

/-- `store::db_load_n_group_segment` running `sql_query::load_n_latest_msg`:
every row whose `time` is among the `n` most recent distinct `time` values,
ordered by `time` ascending (the order of rows sharing one `time` is not
fixed by the query; this embedding keeps the stable storage order). -/
def load_n_latest_msg (table : List GroupChatSegment) (n : Nat) :
    List GroupChatSegment :=
  (table.filter (fun s => (top_n_times table n).contains s.time)).mergeSort
    (fun a b => decide (a.time ≤ b.time))

/-! ## The recall reconciler (`src/group_notice.rs`) -/

/-- `group_notice::GroupRecall`: a retraction notice. -/
structure GroupRecall where
  time : Int
  self_id : Int
  group_id : Int
  user_id : Int
  operator_id : Int
  message_id : Int
deriving DecidableEq, Repr

/-- The `notice.message_id as i32` truncating cast in `handle_recall`. -/
def wrapI32 (t : Int) : Int :=
  (t + 2 ^ 31) % 2 ^ 32 - 2 ^ 31

/-- `group_notice::handle_recall`: look up the stored segments of the
retracted message (empty ⇒ `db_warn!` and stop), convert the notice
timestamp (failure ⇒ `db_error!` and stop), then append one synthetic
recall-indicator segment followed by every original segment, in their
stored order. -/
def handle_recall (env : StoreEnv) (table : List GroupChatSegment)
    (notice : GroupRecall) : List GroupChatSegment × List LogEvent :=
  let user_name := env.nameOf notice.group_id notice.user_id
  let op_name := env.nameOf notice.group_id notice.operator_id
  let message_id := wrapI32 notice.message_id
  let segs := db_find_segment_by_id table message_id
  if segs.isEmpty then
    (table, [⟨LogLevel.warn, "Recalled message not found."⟩])
  else
    match iso8601_from_timestamp notice.time with
    | none => (table, [⟨LogLevel.error, "Recall notice timestamp error"⟩])
    | some time =>
      let msg := op_name ++ " 撤回了 " ++ user_name ++ " 的消息, id=" ++ toString message_id
      let recall_indicator : GroupChatSegment :=
        ⟨0, time, env.botQQ, "RECALL_INDICATOR", "text", msg, "RECALL_INDICATOR"⟩
      (table ++ recall_indicator :: segs, [])

/-! ## CSV export (`store::dump_csv`) -/

/-- The outcome of one `tokio::process` invocation. -/
structure ProcOutput where
  success : Bool
  stdout : String
  stderr : String
deriving DecidableEq, Repr

/-- The result of `store::dump_csv`: on subprocess success the destination
file is created holding exactly the subprocess stdout; otherwise a
`PluginError::ChildProcess` is returned and no file is written. -/
inductive CsvDump where
  | ok (path : String) (file_content : String)
  | childProcessError (stderr : String)
deriving DecidableEq, Repr

/-- `store::dump_csv` given the subprocess outcome (`src/store.rs:193-205`). -/
def dump_csv (file_path : String) (out : ProcOutput) : CsvDump :=
  if out.success then CsvDump.ok file_path out.stdout
  else CsvDump.childProcessError out.stderr

/-- Modelled from the spec: the text the external `sqlite3 -header -csv`
subprocess prints for one result-set cell — “standard comma-separated
quoting” (§6 export surface); the formatter itself is not code of this
repository.  A cell containing a comma, a quote or a newline is quoted with
inner quotes doubled. -/
def csv_quote_field (s : String) : String :=
  if s.toList.any (fun c => c = ',' ∨ c = '"' ∨ c = '\n') then
    "\"" ++ String.join (s.toList.map fun c =>
      if c = '"' then "\"\"" else String.singleton c) ++ "\""
  else s

/-- Modelled from the spec: one CSV line. -/
def csv_line (cells : List String) : String :=
  String.intercalate "," (cells.map csv_quote_field) ++ "\n"

/-- Modelled from the spec: the full `sqlite3 -header -csv` stdout for a
query — “a header row followed by selected columns” (§6). -/
def csv_output (header : List String) (rows : List (List String)) : String :=
  csv_line header ++ String.join (rows.map csv_line)

/-- Modelled from the spec: a successful `sqlite3 -header -csv` run over a
result set with the given header and rows. -/
def sqlite3_csv (header : List String) (rows : List (List String)) : ProcOutput :=
  ⟨true, csv_output header rows, ""⟩

/-! ## The presence watcher (`src/live.rs`, `src/global_state.rs`) -/

/-- `global_state::LiveSwitch`: the four presence states. -/
inductive LiveSwitch where
  | On
  | Off
  | Init
  | Trap
deriving DecidableEq, Repr

/-- `global_state::default_switch`: the `AtomicU8` every `LiveSetting`
starts with on process start (`AtomicU8::from(2)`, i.e. `Init`). -/
def default_switch : Nat := 2

/-- `LiveSetting::get_switch`: decode the stored `u8`. -/
def get_switch (v : Nat) : LiveSwitch :=
  match v with
  | 0 => LiveSwitch.Off
  | 1 => LiveSwitch.On
  | 2 => LiveSwitch.Init
  | _ => LiveSwitch.Trap

/-- `LiveSetting::set_switch`: encode a state into the `u8`. -/
def set_switch : LiveSwitch → Nat
  | LiveSwitch.Off => 0
  | LiveSwitch.On => 1
  | LiveSwitch.Init => 2
  | LiveSwitch.Trap => 3

/-- `live::LiveData`: the liveness collaborator's per-room data. -/
structure LiveData where
  is_streaming : Bool
  online : Nat
  attention : Nat
  keyframe : String
  user_cover : String
  area_name : String
  description : String
  title : String
deriving DecidableEq, Repr

/-- `live::LiveRoom`: the liveness collaborator's answer (`exist` decoded
from the API `code`). -/
structure LiveRoom where
  exist : Bool
  data : LiveData
deriving DecidableEq, Repr

/-- `LiveRoom::url_from_id`. -/
def url_from_id (room_id : String) : String :=
  "https://live.bilibili.com/" ++ room_id

/-- `impl Display for LiveRoom` (the `writedoc!` body). -/
def liveRoomDisplay (r : LiveRoom) : String :=
  "分区:" ++ r.data.area_name ++ "\n标题:" ++ r.data.title ++ "\n简介:" ++
    r.data.description ++ "\n热度:" ++ toString r.data.online ++ ", 关注:" ++
    toString r.data.attention ++ "\n"

/-- `global_state::LiveSetting` (the configuration fields; the `AtomicU8`
switch is threaded separately as explicit state). -/
structure LiveSetting where
  room_id : String
  online_msg : String
  offline_msg : String
  query_message : String
  poll_interval_sec : Nat
deriving DecidableEq, Repr

/-- One outward group message of the notification sink
(`bot.send_group_msg`): the target group, the text and the optional image. -/
structure SentMsg where
  group_id : Int
  text : String
  image : Option String
deriving DecidableEq, Repr

/-- `fallback_list.iter().find(|&x| !x.is_empty())`. -/
def firstNonEmpty (l : List String) : Option String :=
  l.find? (fun x => !x.isEmpty)

/-- The online-notification text (`formatdoc!` in `subscribe_live`,
`src/live.rs:158-167`). -/
def online_text (live : LiveSetting) (room : LiveRoom) : String :=
  live.online_msg ++ "\n链接:" ++ url_from_id live.room_id ++ "\n" ++
    liveRoomDisplay room ++ "\n"

/-- One poll tick of `live::subscribe_live` for one watched room
(`src/live.rs:131-196`): `query` is the liveness query's outcome (`none` =
query failure).  Returns the new switch `u8`, the outward notifications
sent and the log events. -/
def subscribe_tick (live : LiveSetting) (group_id : Int) (query : Option LiveRoom)
    (switch : Nat) : Nat × List SentMsg × List LogEvent :=
  match query with
  | none => (switch, [], [⟨LogLevel.error, "Query live room failed"⟩])
  | some room =>
    if !room.exist then
      (switch, [], [⟨LogLevel.error, "直播间" ++ live.room_id ++ "不存在"⟩])
    else
      match get_switch switch with
      | LiveSwitch.On =>
        if !room.data.is_streaming then
          (set_switch LiveSwitch.Off, [⟨group_id, live.offline_msg, none⟩],
            [⟨LogLevel.info, "not streaming, offline notification"⟩])
        else (switch, [], [])
      | LiveSwitch.Off =>
        if room.data.is_streaming then
          (set_switch LiveSwitch.On,
            [⟨group_id, online_text live room,
              firstNonEmpty [room.data.keyframe, room.data.user_cover]⟩],
            [⟨LogLevel.info, "streaming, online notification"⟩])
        else (switch, [], [])
      | LiveSwitch.Init =>
        ((if room.data.is_streaming then set_switch LiveSwitch.On
          else set_switch LiveSwitch.Off), [],
          [⟨LogLevel.info, "Live switch: Init"⟩])
      | LiveSwitch.Trap =>
        (switch, [], [⟨LogLevel.error, "Subscribe live in trap state"⟩])

/-- The switch value after a sequence of poll ticks. -/
def run_ticks (live : LiveSetting) (group_id : Int)
    (queries : List (Option LiveRoom)) (switch : Nat) : Nat :=
  queries.foldl (fun st q => (subscribe_tick live group_id q st).1) switch

/-! ## Concrete instances used by witnesses and counterexamples -/

/-- A concrete store environment. -/
def env0 : StoreEnv :=
  ⟨"2024-01-01 00:00:00", fun _ _ => "member", fun s => s, fun s => s, fun s => s, 99⟩

/-- A well-formed text part. -/
def textPart : MsgSeg := ⟨"text", [("text", JVal.str "hello")]⟩

/-- An `at` part with the given `qq` payload string. -/
def atPart (payload : String) : MsgSeg := ⟨"at", [("qq", JVal.str payload)]⟩

/-- A stored segment of message 5. -/
def seg1 : GroupChatSegment := ⟨5, "2024-01-01 00:00:00", 7, "alice", "text", "hi", "text"⟩

/-- A retraction notice for message 5 with a representable timestamp. -/
def recallGood : GroupRecall := ⟨0, 1, 10, 7, 8, 5⟩

/-- A retraction notice for message 5 whose unix timestamp is outside the
representable date range. -/
def recallBadTime : GroupRecall := ⟨1000000000000000000, 1, 10, 7, 8, 5⟩

/-- A concrete live-room configuration. -/
def live0 : LiveSetting := ⟨"123", "online now", "offline now", "query", 60⟩

/-- A concrete existing, streaming room. -/
def room1 : LiveRoom := ⟨true, ⟨true, 5, 6, "kf", "uc", "area", "desc", "title"⟩⟩

/-! ## Helper lemmas on sorting and distinct values -/

lemma length_le_of_nodup_subset {α : Type*} [DecidableEq α] {l₁ l₂ : List α}
    (h : l₁.Nodup) (hs : l₁ ⊆ l₂) : l₁.length ≤ l₂.length := by
  calc l₁.length = l₁.toFinset.card := (List.toFinset_card_of_nodup h).symm
    _ ≤ l₂.toFinset.card := Finset.card_le_card (fun x hx => by
        simp only [List.mem_toFinset] at hx ⊢; exact hs hx)
    _ ≤ l₂.length := l₂.toFinset_card_le

lemma pairwise_gt_of_sorted_ge {α : Type*} [LinearOrder α] {l : List α}
    (hs : l.Pairwise (fun a b => decide (b ≤ a) = true)) (hn : l.Nodup) :
    l.Pairwise (fun a b => b < a) :=
  (hs.and hn).imp (fun h => lt_of_le_of_ne (by simpa using h.1) (Ne.symm h.2))

/-- Membership in the first `n` entries of a strictly descending list is
exactly: membership, with fewer than `n` entries strictly greater. -/
lemma mem_take_of_pairwise_gt {α : Type*} [LinearOrder α] {l : List α}
    (h : l.Pairwise (fun a b => b < a)) (n : ℕ) (t : α) :
    t ∈ l.take n ↔ t ∈ l ∧ (l.filter (fun u => decide (t < u))).length < n := by
  induction l generalizing n with
  | nil => simp
  | cons a l ih =>
    obtain ⟨ha, hl⟩ := List.pairwise_cons.mp h
    rcases n with _ | m
    · simp
    · rw [List.take_succ_cons]
      by_cases hta : t = a
      · subst hta
        have hfil : (t :: l).filter (fun u => decide (t < u)) = [] := by
          rw [List.filter_eq_nil_iff]
          intro u hu
          rcases List.mem_cons.mp hu with rfl | hu
          · simp
          · simpa using not_lt.mpr (le_of_lt (ha u hu))
        simp [hfil]
      · have hlhs : t ∈ a :: l.take m ↔ t ∈ l.take m := by simp [hta]
        rw [hlhs]
        by_cases htl : t ∈ l
        · have hta' : t < a := ha t htl
          have hfc : (a :: l).filter (fun u => decide (t < u))
              = a :: l.filter (fun u => decide (t < u)) := by
            simp [List.filter_cons, hta']
          rw [ih hl, hfc]
          simp only [List.mem_cons, hta, false_or, List.length_cons]
          exact and_congr_right (fun _ => by omega)
        · have h1 : t ∉ l.take m := fun hc => htl (List.take_subset m l hc)
          have h2 : t ∉ a :: l := by simp [hta, htl]
          simp [h1, h2]

lemma mergeSortDesc_pairwise_gt {α : Type*} [LinearOrder α] {l : List α}
    (hn : l.Nodup) :
    (l.mergeSort (fun a b => decide (b ≤ a))).Pairwise (fun a b => b < a) := by
  apply pairwise_gt_of_sorted_ge
  · exact List.sorted_mergeSort
      (fun a b c h1 h2 => by
        simp only [decide_eq_true_eq] at h1 h2 ⊢; exact le_trans h2 h1)
      (fun a b => by simpa using le_total b a) l
  · exact ((List.mergeSort_perm l _).nodup_iff).mpr hn

/-- A distinct `time` value is among `top_n_times` exactly when fewer than
`n` distinct `time` values of the table are more recent. -/
lemma mem_top_n_times (table : List GroupChatSegment) (n : ℕ) (t : String) :
    t ∈ top_n_times table n ↔
      t ∈ table.map GroupChatSegment.time ∧
      (((table.map GroupChatSegment.time).dedup).filter
        (fun u => decide (t < u))).length < n := by
  unfold top_n_times
  have hperm := List.mergeSort_perm
    ((table.map GroupChatSegment.time).dedup) (fun a b => decide (b ≤ a))
  rw [mem_take_of_pairwise_gt (mergeSortDesc_pairwise_gt (List.nodup_dedup _)) n t]
  rw [hperm.mem_iff, List.mem_dedup, (hperm.filter _).length_eq]
  congr!

/-- Membership characterisation of `load_n_latest_msg`. -/
lemma mem_load_n_latest (table : List GroupChatSegment) (n : ℕ)
    (s : GroupChatSegment) :
    s ∈ load_n_latest_msg table n ↔
      s ∈ table ∧
      (((table.map GroupChatSegment.time).dedup).filter
        (fun u => decide (s.time < u))).length < n := by
  unfold load_n_latest_msg
  rw [List.mem_mergeSort, List.mem_filter]
  have hc : ((top_n_times table n).contains s.time = true) ↔
      s.time ∈ top_n_times table n := by
    simp
  rw [hc, mem_top_n_times]
  constructor
  · rintro ⟨h1, _, h3⟩; exact ⟨h1, h3⟩
  · rintro ⟨h1, h3⟩; exact ⟨h1, List.mem_map_of_mem _ h1, h3⟩

/-- `load_n_latest_msg` is sorted by ascending `time`. -/
lemma load_n_latest_sorted (table : List GroupChatSegment) (n : ℕ) :
    List.Sorted (fun a b : GroupChatSegment => a.time ≤ b.time)
      (load_n_latest_msg table n) := by
  have h := @List.sorted_mergeSort GroupChatSegment
    (fun a b : GroupChatSegment => decide (a.time ≤ b.time))
    (fun a b c h1 h2 => by
      simp only [decide_eq_true_eq] at h1 h2 ⊢; exact le_trans h1 h2)
    (fun a b => by simpa using le_total a.time b.time)
    (table.filter (fun s => (top_n_times table n).contains s.time))
  exact h.imp (fun hab => by simpa using hab)

/-- `load_n_latest_msg table n` spans at most `n` distinct `time` values. -/
lemma load_n_latest_span (table : List GroupChatSegment) (n : ℕ) :
    ((load_n_latest_msg table n).map GroupChatSegment.time).dedup.length ≤ n := by
  have hsub : ((load_n_latest_msg table n).map GroupChatSegment.time).dedup
      ⊆ top_n_times table n := by
    intro t ht
    rw [List.mem_dedup] at ht
    obtain ⟨s, hs, rfl⟩ := List.mem_map.mp ht
    unfold load_n_latest_msg at hs
    rw [List.mem_mergeSort, List.mem_filter] at hs
    simpa using hs.2
  calc ((load_n_latest_msg table n).map GroupChatSegment.time).dedup.length
      ≤ (top_n_times table n).length :=
        length_le_of_nodup_subset (List.nodup_dedup _) hsub
    _ ≤ n := List.length_take_le n _

/-- Every row `storeSegments` appends carries the single resolved
timestamp. -/
lemma storeSegments_time (env : StoreEnv) (gid mid : Int) (ts : String)
    (sid : Int) (sn : String) (segs : List (String × String)) :
    ∀ r ∈ (storeSegments env gid mid ts sid sn segs).1, r.time = ts := by
  induction segs with
  | nil => simp [storeSegments]
  | cons p rest ih =>
    obtain ⟨st, sc⟩ := p
    intro r hr
    simp only [storeSegments] at hr
    rcases hi : interpret_segment env gid st sc with ⟨o, ls⟩
    rw [hi] at hr
    rcases o with _ | ci
    · exact ih r hr
    · rcases List.mem_cons.mp hr with rfl | hr
      · rfl
      · exact ih r hr

/-- `storeSegments` appends exactly one row per segment surviving
interpretation. -/
lemma storeSegments_length (env : StoreEnv) (gid mid : Int) (ts : String)
    (sid : Int) (sn : String) (segs : List (String × String)) :
    (storeSegments env gid mid ts sid sn segs).1.length
      = (segs.filter
          (fun p => (interpret_segment env gid p.1 p.2).1.isSome)).length := by
  induction segs with
  | nil => simp [storeSegments]
  | cons p rest ih =>
    obtain ⟨st, sc⟩ := p
    simp only [storeSegments, List.filter_cons]
    rcases hi : interpret_segment env gid st sc with ⟨o, ls⟩
    rcases o with _ | ci
    · simpa [hi] using ih
    · simpa [hi] using ih

/-! ## Claim theorems -/

/-- C2: `loadRecent` (`db_load_n_group_segment` running
`load_n_latest_msg`) returns exactly the stored segments whose timestamp
belongs to the `n` most-recent distinct timestamp values of the channel
table — the rows with fewer than `n` distinct strictly-more-recent
timestamps — sorted in ascending timestamp order, and the result never
spans more than `n` distinct timestamps. -/
theorem load_recent_distinct_window (table : List GroupChatSegment) (n : ℕ) :
    (∀ s : GroupChatSegment, s ∈ load_n_latest_msg table n ↔
      (s ∈ table ∧
        (((table.map GroupChatSegment.time).dedup).filter
          (fun u => decide (s.time < u))).length < n)) ∧
    List.Sorted (fun a b : GroupChatSegment => a.time ≤ b.time)
      (load_n_latest_msg table n) ∧
    ((load_n_latest_msg table n).map GroupChatSegment.time).dedup.length ≤ n :=
  ⟨fun s => mem_load_n_latest table n s, load_n_latest_sorted table n,
    load_n_latest_span table n⟩

/-- C5: `exportCsv` (`dump_csv`) writes a destination file holding the
header row followed by the selected rows in CSV form; on an empty result
set the file content is exactly the header row and nothing else.  The CSV
text itself is produced by the external `sqlite3 -header -csv` subprocess,
modelled from the spec as `sqlite3_csv`; `dump_csv` writes that subprocess
stdout verbatim on success. -/
theorem export_csv_header_row (file_path : String) (header : List String)
    (rows : List (List String)) :
    dump_csv file_path (sqlite3_csv header rows)
      = CsvDump.ok file_path (csv_line header ++ String.join (rows.map csv_line)) ∧
    dump_csv file_path (sqlite3_csv header [])
      = CsvDump.ok file_path (csv_line header) := by
  constructor
  · rfl
  · show CsvDump.ok file_path (csv_output header []) = _
    rw [csv_output]
    show CsvDump.ok file_path (csv_line header ++ "") = _
    rw [String.append_empty]

/-- C8: on a poll tick where the liveness query fails or answers
`exists = false`, the tick is skipped after logging: the switch value is
unchanged, no notification is sent, and exactly one error-level log event
is emitted. -/
theorem poll_tick_skipped_on_failure (live : LiveSetting) (gid : Int)
    (q : Option LiveRoom) (st : ℕ)
    (h : q = none ∨ ∃ room, q = some room ∧ room.exist = false) :
    (subscribe_tick live gid q st).1 = st ∧
    (subscribe_tick live gid q st).2.1 = [] ∧
    (subscribe_tick live gid q st).2.2.length = 1 ∧
    ∀ e ∈ (subscribe_tick live gid q st).2.2, e.level = LogLevel.error := by
  rcases h with rfl | ⟨room, rfl, hex⟩
  · simp [subscribe_tick]
  · simp [subscribe_tick, hex]

/-- C8 witness: a failed query at the initial switch value. -/
theorem poll_tick_skipped_on_failure_witness :
    (subscribe_tick live0 7 none default_switch).1 = default_switch ∧
    (subscribe_tick live0 7 none default_switch).2.1 = [] ∧
    (subscribe_tick live0 7 none default_switch).2.2.length = 1 ∧
    ∀ e ∈ (subscribe_tick live0 7 none default_switch).2.2,
      e.level = LogLevel.error :=
  poll_tick_skipped_on_failure live0 7 none default_switch (Or.inl rfl)

/-- C9 counterexample: the stored `u8` value `3` lies inside `{0,1,2,3}`
yet already decodes to `Trap`, so "reachable only if the encoding holds a
value outside `{0,1,2,3}`" fails at the value `3`. -/
theorem trap_from_encoded_value_three :
    get_switch 3 = LiveSwitch.Trap ∧ (3 : ℕ) ∈ ([0, 1, 2, 3] : List ℕ) := by
  decide

/-- C9 (amended): no sequence of poll ticks starting from the initial
`Init` encoding ever reaches `Trap`; no tick transition maps a non-`Trap`
state to `Trap`; and the decoder yields `Trap` exactly on a `u8` value
outside `{0, 1, 2}` (so `Trap` requires a write outside the transition
logic's own `{0,1,2}` values). -/
theorem trap_state_unreachable (live : LiveSetting) (gid : Int) :
    (∀ (st : ℕ) (q : Option LiveRoom), get_switch st ≠ LiveSwitch.Trap →
      get_switch (subscribe_tick live gid q st).1 ≠ LiveSwitch.Trap) ∧
    (∀ queries : List (Option LiveRoom),
      get_switch (run_ticks live gid queries default_switch) ≠ LiveSwitch.Trap) ∧
    (∀ v : ℕ, get_switch v = LiveSwitch.Trap ↔ ¬(v = 0 ∨ v = 1 ∨ v = 2)) := by
  have hinv : ∀ (st : ℕ) (q : Option LiveRoom), get_switch st ≠ LiveSwitch.Trap →
      get_switch (subscribe_tick live gid q st).1 ≠ LiveSwitch.Trap := by
    intro st q h
    rcases q with _ | room
    · simpa [subscribe_tick] using h
    · by_cases hex : room.exist
      · rcases hg : get_switch st with _ | _ | _ | _
        · rcases hs : room.data.is_streaming with _ | _ <;>
            simp_all [subscribe_tick, set_switch, get_switch]
        · rcases hs : room.data.is_streaming with _ | _ <;>
            simp_all [subscribe_tick, set_switch, get_switch]
        · rcases hs : room.data.is_streaming with _ | _ <;>
            simp_all [subscribe_tick, set_switch, get_switch]
        · exact absurd hg h
      · simp only [Bool.not_eq_true] at hex
        simpa [subscribe_tick, hex] using h
  have hrun : ∀ (queries : List (Option LiveRoom)) (st : ℕ),
      get_switch st ≠ LiveSwitch.Trap →
      get_switch (run_ticks live gid queries st) ≠ LiveSwitch.Trap := by
    intro queries
    induction queries with
    | nil => intro st h; simpa [run_ticks] using h
    | cons q qs ih =>
      intro st h
      exact ih ((subscribe_tick live gid q st).1) (hinv st q h)
  refine ⟨hinv, fun qs => hrun qs default_switch (by simp [default_switch, get_switch]), ?_⟩
  intro v
  match v with
  | 0 => simp [get_switch]
  | 1 => simp [get_switch]
  | 2 => simp [get_switch]
  | (n + 3) =>
    constructor
    · intro _; omega
    · intro _; rfl

/-- C10: an inbound message whose unix timestamp cannot be converted to
ISO-8601 is dropped whole by `write_group_msg`: the channel table is
unchanged (zero segments persisted) and the only effect is one error-level
log event, however well-formed the message parts are. -/
theorem write_group_msg_bad_timestamp_drops_message (env : StoreEnv)
    (table : List GroupChatSegment) (gid mid sid t : Int) (parts : List MsgSeg)
    (h : iso8601_from_timestamp t = none) :
    write_group_msg env table gid mid (some (TimeRepr.UnixTimeStamp t)) sid parts
      = (table, [⟨LogLevel.error, "timestamp out of range"⟩]) := by
  simp [write_group_msg, TimeRepr.to_iso8601, h]

/-- C10 witness: unix timestamp `10^18` is past year 9999, and a message
with a well-formed text part is dropped whole. -/
theorem write_group_msg_bad_timestamp_drops_message_witness :
    write_group_msg env0 [] 1 2
        (some (TimeRepr.UnixTimeStamp 1000000000000000000)) 3 [textPart]
      = ([], [⟨LogLevel.error, "timestamp out of range"⟩]) :=
  write_group_msg_bad_timestamp_drops_message env0 [] 1 2 3 1000000000000000000
    [textPart] (by decide)

/-- C1: on a successful poll tick (query succeeded and the room exists),
the presence state machine follows the transition table
`Init+live→On, Init+offline→Off, On+live→On, On+offline→Off, Off+offline→Off,
Off+live→On, Trap→Trap`, notifies exactly on the `On→Off` edge (the
offline message) and the `Off→On` edge (the online message with metadata),
never on a stable state, and never from `Init` — the state every room
holds at process start (`default_switch`). -/
theorem presence_transition_table (live : LiveSetting) (gid : Int)
    (room : LiveRoom) (st : ℕ) (hex : room.exist = true) :
    (get_switch st = LiveSwitch.Init → room.data.is_streaming = true →
      get_switch (subscribe_tick live gid (some room) st).1 = LiveSwitch.On ∧
      (subscribe_tick live gid (some room) st).2.1 = []) ∧
    (get_switch st = LiveSwitch.Init → room.data.is_streaming = false →
      get_switch (subscribe_tick live gid (some room) st).1 = LiveSwitch.Off ∧
      (subscribe_tick live gid (some room) st).2.1 = []) ∧
    (get_switch st = LiveSwitch.On → room.data.is_streaming = true →
      get_switch (subscribe_tick live gid (some room) st).1 = LiveSwitch.On ∧
      (subscribe_tick live gid (some room) st).2.1 = []) ∧
    (get_switch st = LiveSwitch.On → room.data.is_streaming = false →
      get_switch (subscribe_tick live gid (some room) st).1 = LiveSwitch.Off ∧
      (subscribe_tick live gid (some room) st).2.1
        = [⟨gid, live.offline_msg, none⟩]) ∧
    (get_switch st = LiveSwitch.Off → room.data.is_streaming = false →
      get_switch (subscribe_tick live gid (some room) st).1 = LiveSwitch.Off ∧
      (subscribe_tick live gid (some room) st).2.1 = []) ∧
    (get_switch st = LiveSwitch.Off → room.data.is_streaming = true →
      get_switch (subscribe_tick live gid (some room) st).1 = LiveSwitch.On ∧
      (subscribe_tick live gid (some room) st).2.1
        = [⟨gid, online_text live room,
            firstNonEmpty [room.data.keyframe, room.data.user_cover]⟩]) ∧
    (get_switch st = LiveSwitch.Trap →
      get_switch (subscribe_tick live gid (some room) st).1 = LiveSwitch.Trap ∧
      (subscribe_tick live gid (some room) st).2.1 = []) ∧
    ((subscribe_tick live gid (some room) st).2.1 ≠ [] →
      (get_switch st = LiveSwitch.On ∧
        get_switch (subscribe_tick live gid (some room) st).1 = LiveSwitch.Off) ∨
      (get_switch st = LiveSwitch.Off ∧
        get_switch (subscribe_tick live gid (some room) st).1 = LiveSwitch.On)) ∧
    get_switch default_switch = LiveSwitch.Init := by
  have g0 : get_switch (set_switch LiveSwitch.Off) = LiveSwitch.Off := rfl
  have g1 : get_switch (set_switch LiveSwitch.On) = LiveSwitch.On := rfl
  refine ⟨?_, ?_, ?_, ?_, ?_, ?_, ?_, ?_, rfl⟩
  · intro hg hs; simp [subscribe_tick, hex, hg, hs, g1]
  · intro hg hs; simp [subscribe_tick, hex, hg, hs, g0]
  · intro hg hs; simp [subscribe_tick, hex, hg, hs]
  · intro hg hs; simp [subscribe_tick, hex, hg, hs, g0]
  · intro hg hs; simp [subscribe_tick, hex, hg, hs]
  · intro hg hs; simp [subscribe_tick, hex, hg, hs, g1]
  · intro hg; simp [subscribe_tick, hex, hg]
  · intro hne
    rcases hg : get_switch st with _ | _ | _ | _
    case On =>
      rcases hs : room.data.is_streaming with _ | _
      · exact Or.inl ⟨rfl, by simp [subscribe_tick, hex, hg, hs, g0]⟩
      · exact absurd (by simp [subscribe_tick, hex, hg, hs]) hne
    case Off =>
      rcases hs : room.data.is_streaming with _ | _
      · exact absurd (by simp [subscribe_tick, hex, hg, hs]) hne
      · exact Or.inr ⟨rfl, by simp [subscribe_tick, hex, hg, hs, g1]⟩
    case Init =>
      exact absurd (by simp [subscribe_tick, hex, hg]) hne
    case Trap =>
      exact absurd (by simp [subscribe_tick, hex, hg]) hne

/-- C1 witness: a streaming, existing room polled from the `On` state. -/
theorem presence_transition_table_witness :
    (get_switch 1 = LiveSwitch.Init → room1.data.is_streaming = true →
      get_switch (subscribe_tick live0 7 (some room1) 1).1 = LiveSwitch.On ∧
      (subscribe_tick live0 7 (some room1) 1).2.1 = []) ∧
    (get_switch 1 = LiveSwitch.Init → room1.data.is_streaming = false →
      get_switch (subscribe_tick live0 7 (some room1) 1).1 = LiveSwitch.Off ∧
      (subscribe_tick live0 7 (some room1) 1).2.1 = []) ∧
    (get_switch 1 = LiveSwitch.On → room1.data.is_streaming = true →
      get_switch (subscribe_tick live0 7 (some room1) 1).1 = LiveSwitch.On ∧
      (subscribe_tick live0 7 (some room1) 1).2.1 = []) ∧
    (get_switch 1 = LiveSwitch.On → room1.data.is_streaming = false →
      get_switch (subscribe_tick live0 7 (some room1) 1).1 = LiveSwitch.Off ∧
      (subscribe_tick live0 7 (some room1) 1).2.1
        = [⟨7, live0.offline_msg, none⟩]) ∧
    (get_switch 1 = LiveSwitch.Off → room1.data.is_streaming = false →
      get_switch (subscribe_tick live0 7 (some room1) 1).1 = LiveSwitch.Off ∧
      (subscribe_tick live0 7 (some room1) 1).2.1 = []) ∧
    (get_switch 1 = LiveSwitch.Off → room1.data.is_streaming = true →
      get_switch (subscribe_tick live0 7 (some room1) 1).1 = LiveSwitch.On ∧
      (subscribe_tick live0 7 (some room1) 1).2.1
        = [⟨7, online_text live0 room1,
            firstNonEmpty [room1.data.keyframe, room1.data.user_cover]⟩]) ∧
    (get_switch 1 = LiveSwitch.Trap →
      get_switch (subscribe_tick live0 7 (some room1) 1).1 = LiveSwitch.Trap ∧
      (subscribe_tick live0 7 (some room1) 1).2.1 = []) ∧
    ((subscribe_tick live0 7 (some room1) 1).2.1 ≠ [] →
      (get_switch 1 = LiveSwitch.On ∧
        get_switch (subscribe_tick live0 7 (some room1) 1).1 = LiveSwitch.Off) ∨
      (get_switch 1 = LiveSwitch.Off ∧
        get_switch (subscribe_tick live0 7 (some room1) 1).1 = LiveSwitch.On)) ∧
    get_switch default_switch = LiveSwitch.Init :=
  presence_transition_table live0 7 room1 1 rfl

/-- C3 counterexample: a retraction notice whose retracted message has one
stored segment (`k = 1 ≥ 1`) but whose timestamp is outside the
representable range makes `handle_recall` append nothing at all — no
tombstone, no replay — so the claim quantified over every such notice
fails. -/
theorem recall_reconcile_counterexample :
    (db_find_segment_by_id [seg1] (wrapI32 recallBadTime.message_id)).length = 1 ∧
    (handle_recall env0 [seg1] recallBadTime).1 = [seg1] ∧
    (handle_recall env0 [seg1] recallBadTime).2
      = [⟨LogLevel.error, "Recall notice timestamp error"⟩] := by
  decide

/-- C3 (amended): for every retraction notice whose timestamp converts to
ISO-8601 and whose retracted message has `k ≥ 1` stored segments,
`handle_recall` appends exactly one tombstone segment with `messageId = 0`
and the sentinel `senderName`, followed by the `k` original segments
unchanged and in their stored order, the tombstone before every replayed
original. -/
theorem recall_appends_tombstone_then_originals (env : StoreEnv)
    (table : List GroupChatSegment) (notice : GroupRecall) (timeStr : String)
    (hk : db_find_segment_by_id table (wrapI32 notice.message_id) ≠ [])
    (ht : iso8601_from_timestamp notice.time = some timeStr) :
    ∃ tomb : GroupChatSegment,
      (handle_recall env table notice).1
        = table ++ tomb :: db_find_segment_by_id table (wrapI32 notice.message_id) ∧
      (handle_recall env table notice).2 = [] ∧
      tomb.message_id = 0 ∧ tomb.sender_name = "RECALL_INDICATOR" := by
  refine ⟨⟨0, timeStr, env.botQQ, "RECALL_INDICATOR", "text",
    env.nameOf notice.group_id notice.operator_id ++ " 撤回了 " ++
      env.nameOf notice.group_id notice.user_id ++ " 的消息, id=" ++
      toString (wrapI32 notice.message_id), "RECALL_INDICATOR"⟩, ?_, ?_, rfl, rfl⟩
  · simp [handle_recall, ht, List.isEmpty_iff, hk]
  · simp [handle_recall, ht, List.isEmpty_iff, hk]

/-- C3 witness: a notice with timestamp `0` retracting message 5 with one
stored segment. -/
theorem recall_appends_tombstone_then_originals_witness :
    ∃ tomb : GroupChatSegment,
      (handle_recall env0 [seg1] recallGood).1
        = [seg1] ++ tomb ::
            db_find_segment_by_id [seg1] (wrapI32 recallGood.message_id) ∧
      (handle_recall env0 [seg1] recallGood).2 = [] ∧
      tomb.message_id = 0 ∧ tomb.sender_name = "RECALL_INDICATOR" :=
  recall_appends_tombstone_then_originals env0 [seg1] recallGood
    "1970-01-01 08:00:00" (by decide) (by decide)

/-- C4 counterexample: for the part `{kind:"at", payload:"abc"}` the
pipeline emits no segment, but the single log event it emits is
error-level — zero warn-level events are logged, so "exactly one warning
is logged" fails. -/
theorem at_codec_counterexample :
    (write_group_msg env0 [] 1 2 (some (TimeRepr.Iso8601 "2024-01-01 00:00:00")) 3
        [atPart "abc"]).1 = [] ∧
    (write_group_msg env0 [] 1 2 (some (TimeRepr.Iso8601 "2024-01-01 00:00:00")) 3
        [atPart "abc"]).2
      = [⟨LogLevel.error, "At message has content not i64: abc"⟩] ∧
    ((write_group_msg env0 [] 1 2 (some (TimeRepr.Iso8601 "2024-01-01 00:00:00")) 3
        [atPart "abc"]).2.filter (fun e => e.level == LogLevel.warn)).length = 0 := by
  decide

/-- C4 (amended): an input part `{kind:"at", payload:"99"}` makes the
codec-plus-store pipeline persist the segment `("at","99")`; a part
`{kind:"at", payload:"abc"}` persists no segment and emits exactly one
error-level log event, while the remaining parts are still processed
unchanged. -/
theorem at_codec_parse_behavior (env : StoreEnv) (table : List GroupChatSegment)
    (gid mid sid : Int) (ts : String) (rest : List MsgSeg) :
    (write_group_msg env table gid mid (some (TimeRepr.Iso8601 ts)) sid
        (atPart "99" :: rest)).1
      = table ++ ⟨mid, ts, sid, env.nameOf gid sid, "at", "99", env.nameOf gid 99⟩ ::
          (write_group_msg env [] gid mid (some (TimeRepr.Iso8601 ts)) sid rest).1 ∧
    (write_group_msg env table gid mid (some (TimeRepr.Iso8601 ts)) sid
        (atPart "abc" :: rest)).1
      = table ++
          (write_group_msg env [] gid mid (some (TimeRepr.Iso8601 ts)) sid rest).1 ∧
    ∃ pre post : List LogEvent,
      (write_group_msg env [] gid mid (some (TimeRepr.Iso8601 ts)) sid rest).2
        = pre ++ post ∧
      (write_group_msg env table gid mid (some (TimeRepr.Iso8601 ts)) sid
          (atPart "abc" :: rest)).2
        = pre ++ ⟨LogLevel.error, "At message has content not i64: abc"⟩ :: post := by
  have h99 : parseI64 "99" = some 99 := by decide
  have habc : parseI64 "abc" = none := by decide
  have hts : toString (99 : ℤ) = "99" := rfl
  refine ⟨?_, ?_, (extract_segments rest).2,
    (storeSegments env gid mid ts sid (env.nameOf gid sid)
      (extract_segments rest).1).2, ?_, ?_⟩ <;>
    simp [write_group_msg, TimeRepr.to_iso8601, extract_segments, atPart, segPayload,
      dataGet, fromValueString, storeSegments, interpret_segment, h99, habc, hts]

/-- C6 counterexample: a message decomposing into `k = 1` segment (an `at`
part with non-integer payload) persists zero segments, and
`loadRecent(_, 1)` afterwards returns the empty list — a proper subset of
the one decomposed segment. -/
theorem message_fanout_counterexample :
    ((extract_segments [atPart "abc"]).1).length = 1 ∧
    (write_group_msg env0 [] 1 2 (some (TimeRepr.Iso8601 "2024-01-01 00:00:00")) 3
        [atPart "abc"]).1 = [] ∧
    load_n_latest_msg
        (write_group_msg env0 [] 1 2 (some (TimeRepr.Iso8601 "2024-01-01 00:00:00")) 3
          [atPart "abc"]).1 1 = [] := by
  have h : (write_group_msg env0 [] 1 2 (some (TimeRepr.Iso8601 "2024-01-01 00:00:00")) 3
      [atPart "abc"]).1 = [] := by decide
  exact ⟨by decide, h, by rw [h]; simp [load_n_latest_msg]⟩

/-- C6 (amended): every segment of an inbound message that survives
interpretation is persisted, all with the one resolved timestamp, and when
that timestamp is the most recent of the channel table,
`loadRecent(channelId, 1)` returns every one of those persisted segments —
never a proper subset of them. -/
theorem message_fanout_single_timestamp (env : StoreEnv)
    (table : List GroupChatSegment) (gid mid sid : Int) (ts : String)
    (parts : List MsgSeg) (hmax : ∀ r ∈ table, r.time ≤ ts) :
    ∃ rows : List GroupChatSegment,
      (write_group_msg env table gid mid (some (TimeRepr.Iso8601 ts)) sid parts).1
        = table ++ rows ∧
      (∀ r ∈ rows, r.time = ts) ∧
      rows.length = ((extract_segments parts).1.filter
        (fun p => (interpret_segment env gid p.1 p.2).1.isSome)).length ∧
      ∀ r ∈ rows, r ∈ load_n_latest_msg (table ++ rows) 1 := by
  refine ⟨(storeSegments env gid mid ts sid (env.nameOf gid sid)
    (extract_segments parts).1).1, rfl, storeSegments_time env gid mid ts sid _ _,
    storeSegments_length env gid mid ts sid _ _, ?_⟩
  intro r hr
  have hrt : r.time = ts := storeSegments_time env gid mid ts sid _ _ r hr
  rw [mem_load_n_latest]
  refine ⟨List.mem_append_right _ hr, ?_⟩
  have hfil : (((table ++ (storeSegments env gid mid ts sid (env.nameOf gid sid)
      (extract_segments parts).1).1).map GroupChatSegment.time).dedup).filter
        (fun u => decide (r.time < u)) = [] := by
    rw [List.filter_eq_nil_iff]
    intro u hu
    rw [List.mem_dedup] at hu
    obtain ⟨x, hx, rfl⟩ := List.mem_map.mp hu
    rcases List.mem_append.mp hx with hx | hx
    · simpa [hrt] using not_lt.mpr (hmax x hx)
    · have := storeSegments_time env gid mid ts sid (env.nameOf gid sid)
        (extract_segments parts).1 x hx
      simp [this, hrt]
  rw [hfil]
  simp

/-- C6 witness: an empty channel table and a single-text-part message. -/
theorem message_fanout_single_timestamp_witness :
    ∃ rows : List GroupChatSegment,
      (write_group_msg env0 [] 1 2 (some (TimeRepr.Iso8601 "2024-01-01 00:00:00")) 3
          [textPart]).1
        = [] ++ rows ∧
      (∀ r ∈ rows, r.time = "2024-01-01 00:00:00") ∧
      rows.length = ((extract_segments [textPart]).1.filter
        (fun p => (interpret_segment env0 1 p.1 p.2).1.isSome)).length ∧
      ∀ r ∈ rows, r ∈ load_n_latest_msg ([] ++ rows) 1 :=
  message_fanout_single_timestamp env0 [] 1 2 3 "2024-01-01 00:00:00" [textPart]
    (by simp)

/-- C7: the codec skips every part with an unrecognized kind or a
missing/malformed payload — one warn-level log event per skipped part —
and still emits a `(kind, content)` pair for every well-formed recognized
part, wherever the bad parts sit: a bad part never discards the rest of
the message. -/
theorem codec_skips_bad_parts (parts : List MsgSeg) :
    (extract_segments parts).1
      = parts.filterMap (fun p => (segPayload p).map (fun c => (p.type_, c))) ∧
    (∀ p ∈ parts, ∀ c, segPayload p = some c →
      (p.type_, c) ∈ (extract_segments parts).1) ∧
    (extract_segments parts).2.length
      = (parts.filter (fun p => (segPayload p).isNone)).length ∧
    ∀ e ∈ (extract_segments parts).2, e.level = LogLevel.warn := by
  induction parts with
  | nil => simp [extract_segments]
  | cons p rest ih =>
    obtain ⟨h1, h2, h3, h4⟩ := ih
    refine ⟨?_, ?_, ?_, ?_⟩
    · rcases hp : segPayload p with _ | c <;>
        simp [extract_segments, hp, List.filterMap_cons, h1]
    · intro q hq c hc
      rcases List.mem_cons.mp hq with rfl | hq
      · rcases hp : segPayload q with _ | c'
        · exact absurd hc (by simp [hp])
        · have hcc : c = c' := by rw [hp] at hc; exact (Option.some_inj.mp hc).symm
          subst hcc
          simp [extract_segments, hp]
      · have hmem := h2 q hq c hc
        rcases hp : segPayload p with _ | c' <;>
          simp [extract_segments, hp, hmem]
    · rcases hp : segPayload p with _ | c <;>
        simp [extract_segments, hp, List.filter_cons, h3]
    · intro e he
      rcases hp : segPayload p with _ | c
      · rw [extract_segments] at he
        simp only [hp] at he
        rcases List.mem_cons.mp he with rfl | he
        · rfl
        · exact h4 e he
      · rw [extract_segments] at he
        simp only [hp] at he
        exact h4 e he

end MomoBot
